import Mathlib

/-!
The exported configuration record of `tailwind.config.js`.

The source file is one CommonJS statement, `module.exports = { ... };`, whose
right-hand side is an object literal.  The development embeds

* the syntax of the statement (`tailwindConfig`), constructor by constructor;
* the evaluation of the JavaScript fragment it is written in (`evalExpr`,
  `execStmt`, `load`), with the constructs the file does *not* use
  (identifier reads, property reads, calls, other assignments) present in the
  syntax and interpreted against an arbitrary host, so that "the record does
  not depend on its environment" is a statement with content.
-/

namespace TailwindConfig

/-- Runtime values: the JSON-like part of JavaScript plus opaque host objects
(functions and built-ins supplied by the loader). Objects keep their own
properties in insertion order. -/
inductive Value where
  | undefined
  | bool (b : Bool)
  | str (s : String)
  | arr (elems : List Value)
  | obj (props : List (String × Value))
  | host (ref : String)

/-- Expressions. The first four constructors are the literal forms used by the
file; the last three are the forms it does not use. -/
inductive Expr where
  | bool (b : Bool)
  | str (s : String)
  | arr (elems : List Expr)
  | obj (props : List (String × Expr))
  | ident (name : String)
  | member (object : Expr) (property : String)
  | call (callee : Expr) (args : List Expr)

/-- Statements: `x.p = e;`, `x = e;` and the expression statement `e;`. -/
inductive Stmt where
  | assignMember (object : String) (property : String) (rhs : Expr)
  | assignVar (name : String) (rhs : Expr)
  | expr (e : Expr)

/-- The object literal on the right of `module.exports =`, key by key as
written in `tailwind.config.js`. -/
def exportsLiteral : Expr :=
  Expr.obj
    [ ("content",
        Expr.obj
          [ ("relative", Expr.bool true),
            ("files", Expr.arr [Expr.str "*.html", Expr.str "./src/**/*.rs"]) ]),
      ("safelist", Expr.arr [Expr.str "invisible"]),
      ("theme", Expr.obj [("extend", Expr.obj [])]),
      ("plugins", Expr.arr []) ]

/-- The statement list of `tailwind.config.js`: the single statement
`module.exports = { ... };` (the leading JSDoc block is a comment and has no
syntax tree). -/
def tailwindConfig : List Stmt :=
  [Stmt.assignMember "module" "exports" exportsLiteral]

/-- Errors an evaluation can raise. -/
inductive JsError where
  | referenceError (name : String)
  | typeError (what : String)
  | thrown (v : Value)

/-- One observable action on the host: a property read, a call, or a
property write on something that is not a plain object. -/
inductive Effect where
  | read (object : Value) (property : String)
  | call (callee : Value) (args : List Value)
  | write (object : Value) (property : String) (v : Value)

/-- The host the module runs in: what a property read and a call answer.
Both may fail and both are arbitrary. -/
structure Host where
  getProp : Value → String → Except JsError Value
  invoke : Value → List Value → Except JsError Value

/-- Interpreter state: the variable bindings in scope (innermost first) and
the trace of actions performed on the host so far. -/
structure State where
  env : List (String × Value)
  trace : List Effect

/-- First binding of a key in an association list. -/
def lookup {α : Type} (k : String) : List (String × α) → Option α
  | [] => none
  | (k', v) :: rest => if k' = k then some v else lookup k rest

/-- Define or overwrite an own property: an existing key keeps its position,
a new key goes last. -/
def setProp {α : Type} (k : String) (v : α) : List (String × α) → List (String × α)
  | [] => [(k, v)]
  | (k', v') :: rest => if k' = k then (k, v) :: rest else (k', v') :: setProp k v rest

mutual
/-- Evaluation of an expression, left to right. -/
def evalExpr (h : Host) : State → Expr → Except JsError (Value × State)
  | st, Expr.bool b => Except.ok (Value.bool b, st)
  | st, Expr.str s => Except.ok (Value.str s, st)
  | st, Expr.arr es =>
    match evalList h st es with
    | Except.ok (vs, st') => Except.ok (Value.arr vs, st')
    | Except.error e => Except.error e
  | st, Expr.obj ps =>
    match evalProps h st [] ps with
    | Except.ok (kvs, st') => Except.ok (Value.obj kvs, st')
    | Except.error e => Except.error e
  | st, Expr.ident x =>
    match lookup x st.env with
    | some v => Except.ok (v, st)
    | none => Except.error (JsError.referenceError x)
  | st, Expr.member e p =>
    match evalExpr h st e with
    | Except.ok (v, st') =>
      match h.getProp v p with
      | Except.ok r => Except.ok (r, { st' with trace := st'.trace ++ [Effect.read v p] })
      | Except.error err => Except.error err
    | Except.error err => Except.error err
  | st, Expr.call f args =>
    match evalExpr h st f with
    | Except.ok (fv, st') =>
      match evalList h st' args with
      | Except.ok (vs, st'') =>
        match h.invoke fv vs with
        | Except.ok r => Except.ok (r, { st'' with trace := st''.trace ++ [Effect.call fv vs] })
        | Except.error err => Except.error err
      | Except.error err => Except.error err
    | Except.error err => Except.error err
/-- Evaluation of the elements of an array literal or an argument list. -/
def evalList (h : Host) : State → List Expr → Except JsError (List Value × State)
  | st, [] => Except.ok ([], st)
  | st, e :: es =>
    match evalExpr h st e with
    | Except.ok (v, st') =>
      match evalList h st' es with
      | Except.ok (vs, st'') => Except.ok (v :: vs, st'')
      | Except.error err => Except.error err
    | Except.error err => Except.error err
/-- Evaluation of the properties of an object literal into the object built
so far. -/
def evalProps (h : Host) :
    State → List (String × Value) → List (String × Expr) →
      Except JsError (List (String × Value) × State)
  | st, acc, [] => Except.ok (acc, st)
  | st, acc, (k, e) :: ps =>
    match evalExpr h st e with
    | Except.ok (v, st') => evalProps h st' (setProp k v acc) ps
    | Except.error err => Except.error err
end

/-- Execution of one statement. In `x.p = e` the base `x` is resolved first,
then `e` is evaluated, then the property is put. -/
def execStmt (h : Host) (st : State) : Stmt → Except JsError State
  | Stmt.assignMember x p rhs =>
    match lookup x st.env with
    | none => Except.error (JsError.referenceError x)
    | some target =>
      match evalExpr h st rhs with
      | Except.error err => Except.error err
      | Except.ok (v, st') =>
        match target with
        | Value.obj props =>
          Except.ok { st' with env := setProp x (Value.obj (setProp p v props)) st'.env }
        | Value.undefined => Except.error (JsError.typeError p)
        | other => Except.ok { st' with trace := st'.trace ++ [Effect.write other p v] }
  | Stmt.assignVar x rhs =>
    match evalExpr h st rhs with
    | Except.error err => Except.error err
    | Except.ok (v, st') => Except.ok { st' with env := setProp x v st'.env }
  | Stmt.expr e =>
    match evalExpr h st e with
    | Except.error err => Except.error err
    | Except.ok (_, st') => Except.ok st'

/-- Execution of a statement list, stopping at the first error. -/
def execStmts (h : Host) : State → List Stmt → Except JsError State
  | st, [] => Except.ok st
  | st, s :: rest =>
    match execStmt h st s with
    | Except.error err => Except.error err
    | Except.ok st' => execStmts h st' rest

/-- The scope a CommonJS loader runs a module body in: a fresh `module` whose
`exports` is an empty object, the `exports` alias, then whatever else the
process has in scope. -/
def moduleScope (globals : List (String × Value)) : List (String × Value) :=
  ("module", Value.obj [("exports", Value.obj [])]) :: ("exports", Value.obj []) :: globals

/-- Loading a module: run its body in a fresh module scope and read
`module.exports` back. The result is the exported value together with the
trace of host actions the body performed. -/
def load (h : Host) (globals : List (String × Value)) (prog : List Stmt) :
    Except JsError (Value × List Effect) :=
  match execStmts h { env := moduleScope globals, trace := [] } prog with
  | Except.error err => Except.error err
  | Except.ok st =>
    match lookup "module" st.env with
    | some (Value.obj props) =>
      Except.ok ((lookup "exports" props).getD Value.undefined, st.trace)
    | _ => Except.ok (Value.undefined, st.trace)

/-- Own property of an object value. -/
def Value.prop (k : String) : Value → Option Value
  | Value.obj ps => lookup k ps
  | _ => none

/-- Property reached by a path of keys. -/
def Value.path : List String → Value → Option Value
  | [], v => some v
  | k :: ks, v =>
    match Value.prop k v with
    | some w => Value.path ks w
    | none => none

/-- Own keys of an object value, in insertion order. -/
def Value.keys : Value → List String
  | Value.obj ps => ps.map Prod.fst
  | _ => []

/-- The strings of an array of strings; `none` when an element is not a string. -/
def allStrings : List Value → Option (List String)
  | [] => some []
  | Value.str s :: rest =>
    match allStrings rest with
    | some ss => some (s :: ss)
    | none => none
  | _ :: _ => none

/-- An array value read as a sequence of strings. -/
def Value.strings : Value → Option (List String)
  | Value.arr vs => allStrings vs
  | _ => none

/-- The three constructs an expression can use besides literals. -/
inductive Construct where
  | identRead
  | propRead
  | call
  deriving DecidableEq

mutual
/-- Number of occurrences of a construct in an expression. -/
def Expr.count (c : Construct) : Expr → Nat
  | Expr.bool _ => 0
  | Expr.str _ => 0
  | Expr.arr es => countList c es
  | Expr.obj ps => countProps c ps
  | Expr.ident _ => if c = Construct.identRead then 1 else 0
  | Expr.member e _ => (if c = Construct.propRead then 1 else 0) + Expr.count c e
  | Expr.call f args => (if c = Construct.call then 1 else 0) + Expr.count c f + countList c args
/-- Occurrences in a list of expressions. -/
def countList (c : Construct) : List Expr → Nat
  | [] => 0
  | e :: es => Expr.count c e + countList c es
/-- Occurrences in the property values of an object literal. -/
def countProps (c : Construct) : List (String × Expr) → Nat
  | [] => 0
  | (_, e) :: ps => Expr.count c e + countProps c ps
end

/-- Occurrences of a construct in a statement (the base read of `x.p = e`
and the assignment itself are not expression constructs). -/
def Stmt.count (c : Construct) : Stmt → Nat
  | Stmt.assignMember _ _ rhs => Expr.count c rhs
  | Stmt.assignVar _ rhs => Expr.count c rhs
  | Stmt.expr e => Expr.count c e

/-- The statement is an assignment. -/
def Stmt.isAssignment : Stmt → Bool
  | Stmt.assignMember _ _ _ => true
  | Stmt.assignVar _ _ => true
  | Stmt.expr _ => false

/-- The statement is the export, `module.exports = e`. -/
def Stmt.isExport : Stmt → Bool
  | Stmt.assignMember x p _ => x = "module" && p = "exports"
  | _ => false

/-! The two syntactic invariants of the data model

The record only carries the strings; whether they are well formed is a
property of the strings themselves. A class-name token is a non-empty string
without white space. A glob is checked against the grammar shared by the
usual dialects, in its strict reading: the pattern is non-empty, a backslash
escapes the next character and may not end the pattern, a bracket class is
closed, braces balance, and `**` stands only as a whole path segment. -/

/-- White space in the sense of a class attribute: tab, line feed, vertical
tab, form feed, carriage return, space. -/
def isSpace (c : Char) : Bool :=
  c = '\t' || c = '\n' || c = '\x0b' || c = '\x0c' || c = '\r' || c = ' '

/-- A class-name token: non-empty, no white space. -/
def validClassToken (s : String) : Bool :=
  !s.data.isEmpty && s.data.all (fun c => !isSpace c)

/-- Scan of a glob for escapes, bracket classes and braces. `inClass` tells
whether a `[` is open, `depth` counts the open `{`. -/
def scanGlob : Bool → Nat → List Char → Bool
  | inClass, depth, [] => !inClass && depth == 0
  | inClass, depth, c :: rest =>
    if c = '\\' then
      match rest with
      | [] => false
      | _ :: rest' => scanGlob inClass depth rest'
    else if inClass then
      scanGlob (c != ']') depth rest
    else if c = '[' then
      scanGlob true depth rest
    else if c = '{' then
      scanGlob false (depth + 1) rest
    else if c = '}' then
      match depth with
      | 0 => false
      | d + 1 => scanGlob false d rest
    else
      scanGlob false depth rest

/-- The path segments of a pattern: the pieces between `/`. -/
def segments : List Char → List (List Char)
  | [] => [[]]
  | c :: rest =>
    if c = '/' then [] :: segments rest
    else
      match segments rest with
      | seg :: segs => (c :: seg) :: segs
      | [] => [[c]]

/-- Two adjacent stars occur in the segment. -/
def hasGlobstar : List Char → Bool
  | [] => false
  | c :: rest =>
    match rest with
    | [] => false
    | d :: _ => (c = '*' && d = '*') || hasGlobstar rest

/-- A segment either has no `**` or is exactly `**`. -/
def segmentOk (seg : List Char) : Bool :=
  !hasGlobstar seg || seg = ['*', '*']

/-- Syntactic validity of a glob pattern. -/
def validGlob (p : String) : Bool :=
  !p.data.isEmpty && scanGlob false 0 p.data && (segments p.data).all segmentOk

/-! Shapes of values, as the interface table names them -/

/-- A boolean. -/
def Value.isBool : Value → Bool
  | Value.bool _ => true
  | _ => false

/-- A string. -/
def Value.isStr : Value → Bool
  | Value.str _ => true
  | _ => false

/-- A sequence (an array). -/
def Value.isSeq : Value → Bool
  | Value.arr _ => true
  | _ => false

/-- A sequence all of whose elements are strings. -/
def Value.isStrSeq : Value → Bool
  | Value.arr vs => vs.all Value.isStr
  | _ => false

/-- A plain object. -/
def Value.isObj : Value → Bool
  | Value.obj _ => true
  | _ => false

/-- The value at a path exists and has the given shape. -/
def Value.pathIs (shape : Value → Bool) (ks : List String) (v : Value) : Bool :=
  match Value.path ks v with
  | some w => shape w
  | none => false

/-! Literal expressions are constants -/

mutual
/-- An expression that uses no identifier read, property read or call has one
value, reached in every host and state, and leaves the state as it was. -/
theorem evalExpr_literal :
    ∀ e : Expr, (∀ c, Expr.count c e = 0) →
      ∃ v, ∀ (h : Host) (st : State), evalExpr h st e = Except.ok (v, st)
  | Expr.bool b, _ => ⟨Value.bool b, fun _ _ => by simp [evalExpr]⟩
  | Expr.str s, _ => ⟨Value.str s, fun _ _ => by simp [evalExpr]⟩
  | Expr.arr es, hc => by
    obtain ⟨vs, hvs⟩ := evalList_literal es (fun c => by simpa [Expr.count] using hc c)
    exact ⟨Value.arr vs, fun h st => by simp [evalExpr, hvs]⟩
  | Expr.obj ps, hc => by
    obtain ⟨kvs, hkvs⟩ := evalProps_literal ps (fun c => by simpa [Expr.count] using hc c) []
    exact ⟨Value.obj kvs, fun h st => by simp [evalExpr, hkvs]⟩
  | Expr.ident _, hc => by
    have := hc Construct.identRead
    simp [Expr.count] at this
  | Expr.member _ _, hc => by
    have := hc Construct.propRead
    simp [Expr.count] at this
  | Expr.call _ _, hc => by
    have := hc Construct.call
    simp [Expr.count] at this
/-- The same for a list of expressions. -/
theorem evalList_literal :
    ∀ es : List Expr, (∀ c, countList c es = 0) →
      ∃ vs, ∀ (h : Host) (st : State), evalList h st es = Except.ok (vs, st)
  | [], _ => ⟨[], fun _ _ => by simp [evalList]⟩
  | e :: es, hc => by
    obtain ⟨v, hv⟩ := evalExpr_literal e (fun c => by
      have := hc c
      simp [countList] at this
      exact this.1)
    obtain ⟨vs, hvs⟩ := evalList_literal es (fun c => by
      have := hc c
      simp [countList] at this
      exact this.2)
    exact ⟨v :: vs, fun h st => by simp [evalList, hv, hvs]⟩
/-- The same for the properties of an object literal, from any object built
so far. -/
theorem evalProps_literal :
    ∀ ps : List (String × Expr), (∀ c, countProps c ps = 0) →
      ∀ acc, ∃ kvs, ∀ (h : Host) (st : State), evalProps h st acc ps = Except.ok (kvs, st)
  | [], _, acc => ⟨acc, fun _ _ => by simp [evalProps]⟩
  | (k, e) :: ps, hc, acc => by
    obtain ⟨v, hv⟩ := evalExpr_literal e (fun c => by
      have := hc c
      simp [countProps] at this
      exact this.1)
    obtain ⟨kvs, hkvs⟩ := evalProps_literal ps (fun c => by
      have := hc c
      simp [countProps] at this
      exact this.2) (setProp k v acc)
    exact ⟨kvs, fun h st => by simp [evalProps, hv, hkvs]⟩
end

/-- A module whose body is the single statement `module.exports = e` with `e`
a literal loads, in every host and under every set of globals, to one and the
same value, with an empty trace. -/
theorem load_literal_export (e : Expr) (hc : ∀ c, Expr.count c e = 0) :
    ∃ v, ∀ (h : Host) (g : List (String × Value)),
      load h g [Stmt.assignMember "module" "exports" e] = Except.ok (v, []) := by
  obtain ⟨v, hv⟩ := evalExpr_literal e hc
  refine ⟨v, fun h g => ?_⟩
  simp [load, execStmts, execStmt, moduleScope, lookup, setProp, hv]

/-! The record -/

/-- C3: in every host and under every set of globals the file loads, and in
the exported record `content.relative` is `true`, `content.files` is exactly
the ordered two-element sequence `"*.html"`, `"./src/**/*.rs"`, and `safelist`
is exactly the one-element sequence `"invisible"`. -/
theorem exported_record_contents (h : Host) (g : List (String × Value)) :
    ∃ v t, load h g tailwindConfig = Except.ok (v, t) ∧
      Value.path ["content", "relative"] v = some (Value.bool true) ∧
      Value.path ["content", "files"] v
        = some (Value.arr [Value.str "*.html", Value.str "./src/**/*.rs"]) ∧
      Value.path ["safelist"] v = some (Value.arr [Value.str "invisible"]) :=
  ⟨_, _, rfl, rfl, rfl, rfl⟩

/-- C4: the record is a constant. There is one value that every load of the
file yields, whatever the host and the globals; so a second load, in whatever
host and globals the first one (or anything else) left behind, yields the
same result as the first. -/
theorem load_twice_identical :
    ∃ v, ∀ (h₁ h₂ : Host) (g₁ g₂ : List (String × Value)),
      load h₁ g₁ tailwindConfig = Except.ok (v, []) ∧
      load h₂ g₂ tailwindConfig = load h₁ g₁ tailwindConfig := by
  obtain ⟨v, hv⟩ := load_literal_export exportsLiteral (fun c => by cases c <;> rfl)
  exact ⟨v, fun h₁ h₂ g₁ g₂ => ⟨hv h₁ g₁, (hv h₂ g₂).trans (hv h₁ g₁).symm⟩⟩

/-- C5: every pattern of the exported record's `content.files` is a
syntactically valid glob (`validGlob` holds of all of them), and every entry
of its `safelist` is a valid class-name token: non-empty, no white space
(`validClassToken` holds of all of them). -/
theorem files_are_globs_safelist_are_tokens (h : Host) (g : List (String × Value)) :
    ∃ v t pats toks, load h g tailwindConfig = Except.ok (v, t) ∧
      (Value.path ["content", "files"] v).bind Value.strings = some pats ∧
      pats.all validGlob = true ∧
      (Value.path ["safelist"] v).bind Value.strings = some toks ∧
      toks.all validClassToken = true :=
  ⟨_, _, _, _, rfl, rfl, by decide, rfl, by decide⟩

/-- C6: the exported record's `content.files` holds at least one pattern. -/
theorem content_files_nonempty (h : Host) (g : List (String × Value)) :
    ∃ v t pats, load h g tailwindConfig = Except.ok (v, t) ∧
      (Value.path ["content", "files"] v).bind Value.strings = some pats ∧
      1 ≤ pats.length ∧ pats ≠ [] :=
  ⟨_, _, _, rfl, rfl, by decide, by simp⟩

/-- C7: the exported record supplies no theme override and no plugin:
`theme.extend` is the empty object, `extend` is the only key of `theme`, and
`plugins` is the empty sequence. -/
theorem no_theme_overrides_no_plugins (h : Host) (g : List (String × Value)) :
    ∃ v t, load h g tailwindConfig = Except.ok (v, t) ∧
      Value.path ["theme", "extend"] v = some (Value.obj []) ∧
      (Value.path ["theme"] v).map Value.keys = some ["extend"] ∧
      Value.path ["plugins"] v = some (Value.arr []) :=
  ⟨_, _, rfl, rfl, rfl, rfl⟩

/-- C8: the exported value is an object whose top-level keys are exactly
`content`, `safelist`, `theme`, `plugins`, with `content.relative` a boolean,
`content.files` a sequence of strings, `safelist` a sequence of strings,
`theme.extend` an object and `plugins` a sequence; below the top level,
`content` has the keys `relative` and `files` only and `theme` the key
`extend` only, so no key is outside the interface table. -/
theorem exported_keys_and_shapes (h : Host) (g : List (String × Value)) :
    ∃ v t, load h g tailwindConfig = Except.ok (v, t) ∧
      Value.isObj v = true ∧
      Value.keys v = ["content", "safelist", "theme", "plugins"] ∧
      Value.pathIs Value.isBool ["content", "relative"] v = true ∧
      Value.pathIs Value.isStrSeq ["content", "files"] v = true ∧
      Value.pathIs Value.isStrSeq ["safelist"] v = true ∧
      Value.pathIs Value.isObj ["theme", "extend"] v = true ∧
      Value.pathIs Value.isSeq ["plugins"] v = true ∧
      (Value.path ["content"] v).map Value.keys = some ["relative", "files"] ∧
      (Value.path ["theme"] v).map Value.keys = some ["extend"] :=
  ⟨_, _, rfl, rfl, rfl, rfl, rfl, rfl, rfl, rfl, rfl, rfl⟩

/-- C9: evaluating the file raises no error and has no observable side
effect. The body is the export assignment alone, its right-hand side is an
object literal with no call, no property read and no identifier read, every
statement that is an assignment is the export; and in every host, from the
module scope over any globals, execution ends without error in the state
that differs from the initial one only in `module.exports`, with an empty
trace. -/
theorem evaluation_total_and_pure (h : Host) (g : List (String × Value)) :
    (∃ ps, tailwindConfig = [Stmt.assignMember "module" "exports" (Expr.obj ps)]) ∧
    (∀ c, (tailwindConfig.map (Stmt.count c)).sum = 0) ∧
    tailwindConfig.all (fun s => !Stmt.isAssignment s || Stmt.isExport s) = true ∧
    (∃ v, execStmts h { env := moduleScope g, trace := [] } tailwindConfig
        = Except.ok
            { env := setProp "module" (Value.obj [("exports", v)]) (moduleScope g),
              trace := [] } ∧
      load h g tailwindConfig = Except.ok (v, [])) := by
  refine ⟨⟨_, rfl⟩, fun c => ?_, by decide, ⟨_, rfl, rfl⟩⟩
  cases c <;> rfl

end TailwindConfig
